import Mathlib

/-!
fast-down CLI — verification of the persistence store and download engine.

A shallow embedding of the parts of the `fast-down` CLI that the checked
claims are about:

* `src/persist.rs` — the `Database` (SQLite table + in-memory dirty cache):
  `setup_db` pruning, `get_entry`, `update_entry`, `init_entry`,
  `remove_entry`.
* `src/model/downloading.rs` — the `Downloading` record and its
  serialization round-trip through `DownloadingRecord`.
* `src/commands/download.rs` — the engine façade `download`: the resume /
  validation phase (lines 81–170), the free-space gate (lines 171–177),
  the event loop (lines 260–324) and the finalization step (lines 320–334).
* `src/space.rs` — `check_free_space`.

Machine integers (`u64`) are modelled as `Nat`; the one place where an
overflowing cast matters (`as_millis() as u64` in `downloading.rs`) takes an
explicit `% 2^64`.  Byte ranges `a..b` are pairs `(a, b)` of `Nat`.  The
SQLite table and the `DashMap` cache are modelled as functions
`String → Option _` line by line from the Rust operations.
-/

namespace FastDown

/-- Half-open byte range `[start, stop)`, the Rust `ProgressEntry` / `a..b`. -/
abbrev ByteRange := Nat × Nat

/-- Model of `entry.progress.iter().map(|(a, b)| b - a).sum()` from
`commands/download.rs` line 92 (also `Total::total` of the fast_down crate:
sum of `end - start`). -/
def sumProgress (l : List ByteRange) : Nat :=
  l.foldl (fun acc r => acc + (r.2 - r.1)) 0

/-- Rust `DatabaseEntry` from `persist.rs` (schema version 2).  `elapsed` is in
milliseconds, as in the Rust struct (`u64`). -/
structure DatabaseEntry where
  file_name : String
  file_size : Nat
  etag : Option String
  last_modified : Option String
  progress : List ByteRange
  elapsed : Nat
  url : String
deriving DecidableEq, Repr

/-- State of `Database` from `persist.rs`: the SQLite `downloads` table
(`path TEXT PRIMARY KEY, data BLOB`, with the blob already decoded) and the
`DashMap` cache whose `Bool` is the dirty flag. -/
structure DbState where
  cache : String → Option (Bool × DatabaseEntry)
  db : String → Option DatabaseEntry

/-- Pointwise update of a keyed map (`DashMap::insert` / SQL upsert or
delete on a primary-key table). -/
def upd {α : Type} (f : String → Option α) (k : String) (v : Option α) :
    String → Option α :=
  fun x => if x = k then v else f x

/-- Model of `Database::get_entry` from `persist.rs` lines 215–232: return the cached
entry if present; otherwise query the table, and on a hit insert the decoded
entry into the cache with a clean dirty flag.  Returns the result together
with the (possibly cache-extended) state. -/
def get_entry (s : DbState) (p : String) : Option DatabaseEntry × DbState :=
  match s.cache p with
  | some e => (some e.2, s)
  | none =>
    match s.db p with
    | some e => (some e, { s with cache := upd s.cache p (some (false, e)) })
    | none => (none, s)

/-- Model of `Database::update_entry` from `persist.rs` lines 234–250: if the cache
holds the path, overwrite `progress` and `elapsed` in place and mark dirty;
else if `get_entry` finds it (filling the cache), insert the updated entry
marked dirty; else do nothing. -/
def update_entry (s : DbState) (p : String) (progress : List ByteRange)
    (elapsed : Nat) : DbState :=
  match s.cache p with
  | some e =>
    { s with
      cache := upd s.cache p (some (true,
        { e.2 with progress := progress, elapsed := elapsed })) }
  | none =>
    match get_entry s p with
    | (some entry, s1) =>
      { s1 with
        cache := upd s1.cache p (some (true,
          { entry with progress := progress, elapsed := elapsed })) }
    | (none, s1) => s1

/-- Model of `Database::init_entry` from `persist.rs` lines 188–213: upsert a fresh
record with empty progress and zero elapsed into the table, and cache it
clean. -/
def init_entry (s : DbState) (p : String) (file_name : String)
    (file_size : Nat) (etag last_modified : Option String) (url : String) :
    DbState :=
  let entry : DatabaseEntry :=
    { file_name := file_name, file_size := file_size, etag := etag,
      last_modified := last_modified, url := url, progress := [],
      elapsed := 0 }
  { cache := upd s.cache p (some (false, entry)),
    db := upd s.db p (some entry) }

/-- Model of `Database::remove_entry` from `persist.rs` lines 252–261: drop the path
from the cache and delete its row from the table. -/
def remove_entry (s : DbState) (p : String) : DbState :=
  { cache := upd s.cache p none, db := upd s.db p none }

/-- The startup pruning of `Database::setup_db` (`persist.rs` lines
110–135), identical in shape to `Store::clean` (`store.rs` lines 74–108):
collect every path of the `downloads` table for which
`fs::try_exists(path).await.unwrap_or(false)` is `false`, and delete those
rows.  `exists_on_disk` is the oracle for that existence check at startup
time. -/
def clean (table : String → Option DatabaseEntry)
    (exists_on_disk : String → Bool) : String → Option DatabaseEntry :=
  fun p => if exists_on_disk p then table p else none

/-! Section: `model/downloading.rs`: the `Downloading` record and its encoding -/

/-- Rust `std::time::Duration`: whole seconds (a `u64`) plus a sub-second
nanosecond part (`< 10^9`).  The bounds are carried as hypotheses where they
matter rather than baked into the type. -/
structure Duration where
  secs : Nat
  nanos : Nat
deriving DecidableEq, Repr

/-- Rust `Duration::as_millis` (mathematical value, Rust returns it as `u128`,
which is always exact for a valid `Duration`). -/
def Duration.as_millis (d : Duration) : Nat :=
  d.secs * 1000 + d.nanos / 1000000

/-- Rust `Duration::from_millis` on a `u64` argument. -/
def Duration.from_millis (ms : Nat) : Duration :=
  { secs := ms / 1000, nanos := ms % 1000 * 1000000 }

/-- Rust `Downloading` from `model/downloading.rs`: the in-memory record, with
`elapsed` a `Duration`. -/
structure Downloading where
  url : String
  file_name : String
  file_size : Nat
  etag : Option String
  last_modified : Option String
  progress : List ByteRange
  elapsed : Duration
deriving DecidableEq, Repr

/-- Rust `DownloadingRecord` from `model/downloading.rs`: the serialized form,
with `elapsed` in whole milliseconds (`u64`). -/
structure DownloadingRecord where
  file_name : String
  file_size : Nat
  etag : Option String
  last_modified : Option String
  progress : List ByteRange
  elapsed : Nat
  url : String
deriving DecidableEq, Repr

/-- Model of `From<Downloading> for DownloadingRecord`: `elapsed` is
`downloading.elapsed.as_millis() as u64`, a `u128 → u64` cast that wraps
modulo `2^64`. -/
def Downloading.toRecord (d : Downloading) : DownloadingRecord :=
  { file_name := d.file_name, file_size := d.file_size, etag := d.etag,
    last_modified := d.last_modified, progress := d.progress,
    elapsed := d.elapsed.as_millis % 2 ^ 64, url := d.url }

/-- Model of `From<DownloadingRecord> for Downloading`: `elapsed` is
`Duration::from_millis(record.elapsed)`. -/
def DownloadingRecord.toDownloading (r : DownloadingRecord) : Downloading :=
  { file_name := r.file_name, file_size := r.file_size, etag := r.etag,
    last_modified := r.last_modified, progress := r.progress,
    elapsed := Duration.from_millis r.elapsed, url := r.url }

/-- Model of `Downloading::dump`: convert to a `DownloadingRecord` and
`bitcode::encode` it.  Modelled from the spec: the `bitcode` byte encoding
(not under `src/`) is an injective serialization whose decode inverts
encode, so bytes are identified with the encoded `DownloadingRecord`. -/
def Downloading.dump (d : Downloading) : DownloadingRecord :=
  d.toRecord

/-- Model of `Downloading::load`: `bitcode::decode` the bytes to a
`DownloadingRecord` (here the identity, see `Downloading.dump`), then
convert.  The `Option` mirrors `decode(bytes).ok()?`. -/
def Downloading.load (bytes : DownloadingRecord) : Option Downloading :=
  some bytes.toDownloading

/-! Section: Spec-modelled fast_down primitives

`merge_progress`, `invert`, `Total::total` and `gen_unique_path` are code of
the `fast_down` library crate, which is not under `src/` (only its callers
are).  They are modelled from the spec, §3 "ProgressSet" and §4.1 "Progress
Ledger". -/

/-- Modelled from the spec: `ProgressSet::merge` / the fast_down
`Merge::merge_progress` used at `commands/download.rs` line 270 —
"insertion-sort by `start`; then fuse any run where
`entries[i].end ≥ entries[i+1].start`". -/
def insertByStart (r : ByteRange) : List ByteRange → List ByteRange
  | [] => [r]
  | x :: xs => if r.1 ≤ x.1 then r :: x :: xs else x :: insertByStart r xs

/-- Fuse consecutive entries whose intervals overlap or touch
(`entries[i].end ≥ entries[i+1].start`), part of the spec-modelled merge. -/
def fuseRanges : List ByteRange → List ByteRange
  | [] => []
  | [x] => [x]
  | x :: y :: rest =>
    if y.1 ≤ x.2 then fuseRanges ((x.1, max x.2 y.2) :: rest)
    else x :: fuseRanges (y :: rest)
termination_by l => l.length

/-- Modelled from the spec: absorb one range into the ledger, coalescing
touching neighbours (§3 `merge(r)`). -/
def merge_progress (l : List ByteRange) (r : ByteRange) : List ByteRange :=
  fuseRanges (insertByStart r l)

/-- Walk of the spec-modelled `invert`: `cursor` is the left end of the
stretch not yet accounted for; each complement gap shorter than `minGap`
is welded onto the covered neighbour (dropped from the output), and a tail
gap shorter than `minGap` is discarded entirely (§4.1 edge cases). -/
def invertGo (minGap total : Nat) : Nat → List ByteRange → List ByteRange
  | cursor, [] =>
    if cursor < total ∧ minGap ≤ total - cursor then [(cursor, total)] else []
  | cursor, r :: rest =>
    let tail := invertGo minGap total r.2 rest
    if cursor < r.1 ∧ minGap ≤ r.1 - cursor then (cursor, r.1) :: tail
    else tail

/-- Modelled from the spec: `invert(progress, total, min_gap)` of the
fast_down crate, used at `commands/download.rs` line 95 — "produce the
complement within `[0, total)`, dropping complement gaps shorter than
`min_gap` by welding them onto a neighbor" (§3, §4.1). -/
def invert (progress : List ByteRange) (total minGap : Nat) :
    List ByteRange :=
  invertGo minGap total 0 progress

/-- Modelled from the spec: `Total::total` of the fast_down crate
(`download_chunks.total()` at `commands/download.rs` line 171): the summed
length of the ranges (§4.1 `total()`). -/
def totalLen (l : List ByteRange) : Nat :=
  sumProgress l

/-! Section: `commands/download.rs`: the engine façade

The `download` function is modelled in phases.  Phase 1 (lines 81–170)
computes the resume decision: it either returns the cancel-expected exit
(`cancel_expected()` at lines 29–33, which prints the cancel line and
returns `Ok(())`) or proceeds with the write progress, the remaining
download chunks and the carried-over elapsed time.  Worker spawning,
`init_entry` and all store writes happen only after phase 1 proceeds. -/

/-- The prompts passed to `confirm` in `commands/download.rs` lines
108–169. -/
inductive ConfirmPrompt where
  | sizeMismatch
  | etagMismatch
  | weakEtag
  | noEtag
  | lastModifiedMismatch
  | fileOverwrite
deriving DecidableEq, Repr

/-- Model of `confirm` in `utils/confirm.rs`: `confirm(yes, prompt, false)` returns `true`
immediately when `yes` is set, otherwise the interactive answer. -/
def confirmAns (yes : Bool) (ans : ConfirmPrompt → Bool)
    (p : ConfirmPrompt) : Bool :=
  yes || ans p

/-- Outcome of the resume/validation phase: `cancel` is the
`cancel_expected()` return (prints the cancel line, returns `Ok(())`,
spawns no workers and writes nothing); `proceed` carries
`resume_download`, `write_progress`, `download_chunks` and `elapsed`. -/
inductive Phase1Result where
  | cancel
  | proceed (resumeDownload : Bool) (writeProgress : List ByteRange)
      (downloadChunks : List ByteRange) (elapsed : Nat)
deriving DecidableEq, Repr

/-- The identity-validation gates of the accepted-resume branch
(`commands/download.rs` lines 108–160), run in source order; each fires on
its condition and cancels when its confirm answer is negative.  `k` is the
result when every fired gate is accepted. -/
def resumeGates (entry : DatabaseEntry) (size : Nat)
    (etagNew lmNew : Option String) (cfm : ConfirmPrompt → Bool)
    (k : Phase1Result) : Phase1Result :=
  let lmGate : Phase1Result :=
    if entry.last_modified ≠ lmNew ∧ ¬ cfm .lastModifiedMismatch then
      .cancel
    else k
  if entry.file_size ≠ size ∧ ¬ cfm .sizeMismatch then .cancel
  else if entry.etag ≠ etagNew then
    if ¬ cfm .etagMismatch then .cancel else lmGate
  else if (match entry.etag with
           | some e => (("W/" : String).data).isPrefixOf e.data
           | none => false) then
    if ¬ cfm .weakEtag then .cancel else lmGate
  else if entry.etag = none ∧ ¬ cfm .noEtag then .cancel
  else lmGate

/-- Phase 1 of `download` (`commands/download.rs` lines 81–170).

Arguments mirror the data the code consults: `minChunkSize` is the run's
`args.min_chunk_size` — it is *not used* in this phase (the source passes
the literal `1024` to `invert` at line 95; `args.min_chunk_size` only
reaches the dispatcher options at line 219) and is kept as a parameter to
state the claim about it; `resume`, `yes`, `force` are the corresponding
`args` flags; `pathExists` is `fs::try_exists(&save_path)`; `fast` is
`info.fast_download`; `size`, `etagNew`, `lmNew` come from the fresh
`UrlInfo`; `stored` is `db.get_entry(&save_path)`; `ans` the interactive
confirm answers. -/
def phase1 (minChunkSize : Nat) (resume yes force : Bool)
    (pathExists fast : Bool) (size : Nat) (etagNew lmNew : Option String)
    (stored : Option DatabaseEntry) (ans : ConfirmPrompt → Bool) :
    Phase1Result :=
  let _ := minChunkSize
  let cfm := confirmAns yes ans
  let overwriteGate : Phase1Result :=
    if ¬ yes ∧ ¬ force ∧ ¬ cfm .fileOverwrite then .cancel
    else .proceed false [] [(0, size)] 0
  if pathExists then
    match (if resume ∧ fast then stored else none) with
    | some entry =>
      if sumProgress entry.progress < size then
        resumeGates entry size etagNew lmNew cfm
          (.proceed true entry.progress (invert entry.progress size 1024)
            entry.elapsed)
      else overwriteGate
    | none => overwriteGate
  else .proceed false [] [(0, size)] 0

/-! Subsection: The free-space gate (`commands/download.rs` lines 171–177) -/

/-- Model of `check_free_space` from `space.rs` lines 18–40: with `avail` standing
for `f_bavail * f_frsize` of the target filesystem, return `None` when the
requested `size` fits and `Some(size - free_space)` (the deficit)
otherwise. -/
def check_free_space (avail size : Nat) : Option Nat :=
  if size ≤ avail then none else some (size - avail)

/-- How the engine leaves the free-space check: `cancelExpectedOk` is the
`cancel_expected()` return (message printed, `Ok(())`), `preflightError`
would be a structured engine error, `workersStarted` means the check passed
and the run goes on to spawn workers. -/
inductive RunOutcome where
  | cancelExpectedOk
  | preflightError
  | workersStarted
deriving DecidableEq, Repr

/-- The free-space gate of `download` (`commands/download.rs` lines
171–177): when `check_free_space` reports a deficit for
`download_chunks.total()`, print the lack-of-space message and return
`cancel_expected()`; otherwise continue toward spawning workers. -/
def spaceGate (avail : Nat) (downloadChunks : List ByteRange) : RunOutcome :=
  match check_free_space avail (totalLen downloadChunks) with
  | some _ => .cancelExpectedOk
  | none => .workersStarted

/-! Subsection: The event loop (`commands/download.rs` lines 260–319)

Only the `PushProgress` arm touches `write_progress` and the store; the
other arms drive the painter and verbose logging, which have no bearing on
the persisted progress. -/

/-- The fast_down `Event` variants received over `result.event_chain`
(`commands/download.rs` lines 261–318). -/
inductive Event where
  | pulling (id : Nat)
  | pullProgress (id : Nat) (r : ByteRange)
  | pullError (id : Nat)
  | pullTimeout (id : Nat)
  | pushProgress (id : Nat) (r : ByteRange)
  | pushError (id : Nat)
  | flushError
  | finished (id : Nat)
deriving DecidableEq, Repr

/-- The ranges of the `PushProgress` events of a run, in arrival order. -/
def pushRanges (events : List Event) : List ByteRange :=
  events.filterMap fun e =>
    match e with
    | .pushProgress _ r => some r
    | _ => none

/-- One iteration of the event loop (`commands/download.rs` lines 260–319)
acting on `(write_progress, store)`: on `PushProgress(_, p)` merge `p` into
`write_progress` and `update_entry` the store at the save path; every other
event leaves both unchanged (painter output only).  `elapsedMs` stands for
the wall-clock `start.elapsed()` reading, which never affects progress. -/
def handleEvent (savePath : String) (elapsedMs : Nat)
    (st : List ByteRange × DbState) (e : Event) :
    List ByteRange × DbState :=
  match e with
  | .pushProgress _ r =>
    let wp := merge_progress st.1 r
    (wp, update_entry st.2 savePath wp elapsedMs)
  | _ => st

/-- The whole event loop: fold `handleEvent` over the received events. -/
def runEventLoop (savePath : String) (elapsedMs : Nat)
    (init : List ByteRange × DbState) (events : List Event) :
    List ByteRange × DbState :=
  events.foldl (handleEvent savePath elapsedMs) init

/-! Subsection: Finalization (`commands/download.rs` lines 320–334) -/

/-- Model of `save_path.with_extension("")` for the engine's save path, which always
carries the `.fdpart` suffix appended at line 73: strip that suffix. -/
def dropFdpart (s : String) : String :=
  if ((".fdpart" : String).data).isSuffixOf s.data then s.dropRight 7 else s

/-- Candidate names tried for the final artifact: the base name first, then
numeric suffixes. -/
def uniqueCandidate (base : String) (n : Nat) : String :=
  if n = 0 then base else base ++ "_" ++ toString n

/-- Modelled from the spec: `gen_unique_path` of the fast_down crate
(`commands/download.rs` line 329) — "if final name already exists,
disambiguate with a numeric suffix" (§4.8 step 9).  `fs` is the set of
paths existing on disk; among the first `fs.length + 1` candidates one is
always fresh. -/
def gen_unique_path (base : String) (fs : List String) : String :=
  match (List.range (fs.length + 1)).find?
      (fun n => !fs.contains (uniqueCandidate base n)) with
  | some n => uniqueCandidate base n
  | none => uniqueCandidate base (fs.length + 1)

/-- Result of the tail of `download` (`commands/download.rs` lines
320–335): the store, the set of on-disk paths, the printed output path if
any, and the function's return value. -/
structure FinalizeResult where
  store : DbState
  fs : List String
  outputPath : Option String
  returnValue : Except String Unit

/-- The tail of `download` (`commands/download.rs` lines 320–334): persist
the last progress snapshot via `update_entry`; then, unless
`result.is_aborted()`, rename the `.fdpart` file to
`gen_unique_path(save_path.with_extension(""))` and `remove_entry` the
store at the `.fdpart` path.  Modelled from the spec: `result.join()` of
the fast_down crate returns success on cooperative abort ("Cancellation is
**not** an error: the engine returns success"), so both branches end in
`Ok(())`. -/
def finalize (aborted : Bool) (store : DbState) (fs : List String)
    (savePath : String) (writeProgress : List ByteRange)
    (elapsedMs : Nat) : FinalizeResult :=
  let store1 := update_entry store savePath writeProgress elapsedMs
  if aborted then
    { store := store1, fs := fs, outputPath := none,
      returnValue := .ok () }
  else
    let outputPath := gen_unique_path (dropFdpart savePath) fs
    { store := remove_entry store1 savePath,
      fs := outputPath :: fs.erase savePath,
      outputPath := some outputPath,
      returnValue := .ok () }

/-! Section: helper lemmas about the store operations -/

/-- Updating a present entry overwrites its `progress` and `elapsed` and a
subsequent `get_entry` sees exactly that. -/
theorem get_entry_update_entry (s : DbState) (p : String)
    (e : DatabaseEntry) (pr : List ByteRange) (el : Nat)
    (h : (get_entry s p).1 = some e) :
    (get_entry (update_entry s p pr el) p).1 =
      some { e with progress := pr, elapsed := el } := by
  cases hc : s.cache p with
  | some v =>
    simp only [get_entry, hc] at h
    obtain rfl : v.2 = e := by exact Option.some.inj h
    simp [update_entry, get_entry, hc, upd]
  | none =>
    cases hd : s.db p with
    | some e1 =>
      simp only [get_entry, hc, hd] at h
      obtain rfl : e1 = e := by exact Option.some.inj h
      simp [update_entry, get_entry, hc, hd, upd]
    | none =>
      simp [get_entry, hc, hd] at h

/-- After `remove_entry`, `get_entry` at the removed path finds nothing. -/
theorem get_entry_remove_entry (s : DbState) (p : String) :
    (get_entry (remove_entry s p) p).1 = none := by
  simp [get_entry, remove_entry, upd]

/-! Section: concrete sample states used by the witnesses -/

/-- A concrete store record used by witnesses. -/
def sampleEntry : DatabaseEntry :=
  { file_name := "file.bin", file_size := 10, etag := some "abc",
    last_modified := some "lm", progress := [(0, 2)], elapsed := 5,
    url := "http-u" }

/-- A concrete store whose table holds `sampleEntry` under the path
`a.fdpart` and whose cache is empty. -/
def sampleDb : DbState :=
  { cache := fun _ => none,
    db := fun x => if x = "a.fdpart" then some sampleEntry else none }

/-! Section: the claims -/

/-- C7: after store startup (`Database::setup_db` pruning, equally
`Store::clean`), an entry survives in the `downloads` table exactly when it
was there before and its key path existed on disk at the time of the
startup check; every entry whose path did not exist has been deleted. -/
theorem startup_prune_exact (table : String → Option DatabaseEntry)
    (exists_on_disk : String → Bool) (p : String) (e : DatabaseEntry) :
    clean table exists_on_disk p = some e ↔
      table p = some e ∧ exists_on_disk p = true := by
  unfold clean
  by_cases h : exists_on_disk p <;> simp [h]

/-- C8: for a path with a stored record, `update_entry` overwrites exactly
`progress` and `elapsed`; a subsequent `get_entry` returns the record whose
`file_name`, `file_size`, `etag`, `last_modified` and `url` are unchanged
and whose `progress` and `elapsed` are the new values. -/
theorem update_entry_overwrites_only_progress_elapsed (s : DbState)
    (p : String) (e : DatabaseEntry) (pr : List ByteRange) (el : Nat)
    (h : (get_entry s p).1 = some e) :
    (get_entry (update_entry s p pr el) p).1 =
      some { file_name := e.file_name, file_size := e.file_size,
             etag := e.etag, last_modified := e.last_modified,
             progress := pr, elapsed := el, url := e.url } :=
  get_entry_update_entry s p e pr el h

/-- Witness for C8 at the concrete store `sampleDb`. -/
theorem update_entry_overwrites_witness :
    (get_entry sampleDb "a.fdpart").1 = some sampleEntry ∧
    (get_entry (update_entry sampleDb "a.fdpart" [(0, 7)] 9) "a.fdpart").1 =
      some { file_name := "file.bin", file_size := 10, etag := some "abc",
             last_modified := some "lm", progress := [(0, 7)], elapsed := 9,
             url := "http-u" } := by
  have h : (get_entry sampleDb "a.fdpart").1 = some sampleEntry := rfl
  exact ⟨h,
    update_entry_overwrites_only_progress_elapsed sampleDb "a.fdpart"
      sampleEntry [(0, 7)] 9 h⟩

/-- The write-progress component of the event loop is the left fold of
`merge_progress` over the `PushProgress` ranges, in arrival order. -/
theorem runEventLoop_fst (savePath : String) (el : Nat)
    (events : List Event) (wp0 : List ByteRange) (db0 : DbState) :
    (runEventLoop savePath el (wp0, db0) events).1 =
      List.foldl merge_progress wp0 (pushRanges events) := by
  induction events generalizing wp0 db0 with
  | nil => rfl
  | cons e es ih =>
    cases e <;>
      simp only [runEventLoop, List.foldl_cons, handleEvent, pushRanges,
        List.filterMap_cons] <;>
      exact ih _ _

/-- The event loop never loses the store entry of the save path. -/
theorem runEventLoop_preserves_entry (savePath : String) (el : Nat)
    (events : List Event) (wp0 : List ByteRange) (db0 : DbState)
    (h : ∃ e, (get_entry db0 savePath).1 = some e) :
    ∃ e, (get_entry (runEventLoop savePath el (wp0, db0) events).2
        savePath).1 = some e := by
  induction events generalizing wp0 db0 with
  | nil => exact h
  | cons ev es ih =>
    cases ev with
    | pushProgress i r =>
      obtain ⟨e, he⟩ := h
      exact ih _ _ ⟨_, get_entry_update_entry db0 savePath e _ el he⟩
    | pulling i => exact ih _ _ h
    | pullProgress i r => exact ih _ _ h
    | pullError i => exact ih _ _ h
    | pullTimeout i => exact ih _ _ h
    | pushError i => exact ih _ _ h
    | flushError => exact ih _ _ h
    | finished i => exact ih _ _ h

/-- C2: the progress persisted for the target path when the engine finishes
— after the event loop and the final `update_entry` snapshot — equals the
merge of the initial progress with the ranges of all `PushProgress` events
received, i.e. the union of all `PushProgress` ranges for the target after
merging. -/
theorem final_persisted_progress_is_merge (events : List Event)
    (wp0 : List ByteRange) (db0 : DbState) (savePath : String)
    (elLoop elFinal : Nat) (e0 : DatabaseEntry)
    (h : (get_entry db0 savePath).1 = some e0) :
    ∃ e, (get_entry (update_entry
            (runEventLoop savePath elLoop (wp0, db0) events).2 savePath
            (runEventLoop savePath elLoop (wp0, db0) events).1 elFinal)
          savePath).1 = some e ∧
      e.progress = List.foldl merge_progress wp0 (pushRanges events) := by
  obtain ⟨e1, he1⟩ :=
    runEventLoop_preserves_entry savePath elLoop events wp0 db0 ⟨e0, h⟩
  exact ⟨_, get_entry_update_entry _ _ _ _ _ he1, by simp [runEventLoop_fst]⟩

/-- A small concrete event stream used by the C2 witness: two
`PushProgress` ranges interleaved with unrelated events. -/
def sampleEvents : List Event :=
  [.pulling 0, .pushProgress 0 (0, 3), .pullProgress 1 (5, 8),
   .pushProgress 1 (5, 8), .finished 0, .finished 1]

/-- Witness for C2 at `sampleDb` and `sampleEvents`. -/
theorem final_persisted_progress_witness :
    (get_entry sampleDb "a.fdpart").1 = some sampleEntry ∧
    ∃ e, (get_entry (update_entry
            (runEventLoop "a.fdpart" 3 ([], sampleDb) sampleEvents).2
            "a.fdpart"
            (runEventLoop "a.fdpart" 3 ([], sampleDb) sampleEvents).1 4)
          "a.fdpart").1 = some e ∧
      e.progress = List.foldl merge_progress [] (pushRanges sampleEvents) := by
  have h : (get_entry sampleDb "a.fdpart").1 = some sampleEntry := rfl
  exact ⟨h, final_persisted_progress_is_merge sampleEvents [] sampleDb
    "a.fdpart" 3 4 sampleEntry h⟩

/-- C10: when neither the cache nor the table holds the path (that is,
`get_entry` finds nothing), `update_entry` is a silent no-op: the store
state is unchanged and no record is created. -/
theorem update_entry_noop_when_absent (s : DbState) (p : String)
    (pr : List ByteRange) (el : Nat) (h : (get_entry s p).1 = none) :
    update_entry s p pr el = s := by
  cases hc : s.cache p with
  | some v => simp [get_entry, hc] at h
  | none =>
    cases hd : s.db p with
    | some e1 => simp [get_entry, hc, hd] at h
    | none => simp [update_entry, get_entry, hc, hd]

/-- Witness for C10 at a path absent from `sampleDb`. -/
theorem update_entry_noop_witness :
    (get_entry sampleDb "missing").1 = none ∧
    update_entry sampleDb "missing" [(0, 1)] 2 = sampleDb := by
  have h : (get_entry sampleDb "missing").1 = none := rfl
  exact ⟨h, update_entry_noop_when_absent sampleDb "missing" [(0, 1)] 2 h⟩

/-- When the stripped final name is not taken on disk, no numeric suffix is
added: the first candidate of `gen_unique_path` is the base name itself. -/
theorem gen_unique_path_of_fresh (base : String) (fs : List String)
    (h : fs.contains base = false) : gen_unique_path base fs = base := by
  unfold gen_unique_path
  rw [List.range_succ_eq_map, List.find?_cons]
  have hc : (!fs.contains (uniqueCandidate base 0)) = true := by
    have h0 : uniqueCandidate base 0 = base := rfl
    rw [h0, h]
    rfl
  rw [hc]
  simp [uniqueCandidate]

/-- C3: a cancelled run (`result.is_aborted()` after join) still returns
`Ok(())`: the last progress snapshot is written through `update_entry`, the
rename-and-remove finalization is skipped (`outputPath` is `none` and the
on-disk paths — the `.fdpart` file among them — are untouched), and the
store entry remains, updated, for future resumption. -/
theorem cancelled_run_exits_ok_and_resumable (store : DbState)
    (fs : List String) (savePath : String) (wp : List ByteRange)
    (elapsedMs : Nat) (e : DatabaseEntry)
    (h : (get_entry store savePath).1 = some e) :
    (finalize true store fs savePath wp elapsedMs).returnValue = .ok () ∧
    (finalize true store fs savePath wp elapsedMs).outputPath = none ∧
    (finalize true store fs savePath wp elapsedMs).fs = fs ∧
    (get_entry (finalize true store fs savePath wp elapsedMs).store
        savePath).1 =
      some { e with progress := wp, elapsed := elapsedMs } := by
  refine ⟨rfl, rfl, rfl, ?_⟩
  show (get_entry (update_entry store savePath wp elapsedMs) savePath).1 = _
  exact get_entry_update_entry store savePath e wp elapsedMs h

/-- Witness for C3 at `sampleDb`: the `.fdpart` path keeps its (updated)
store entry and the run exits successfully. -/
theorem cancelled_run_witness :
    (get_entry sampleDb "a.fdpart").1 = some sampleEntry ∧
    (finalize true sampleDb ["a.fdpart"] "a.fdpart" [(0, 4)] 6).returnValue =
      .ok () ∧
    (finalize true sampleDb ["a.fdpart"] "a.fdpart" [(0, 4)] 6).outputPath =
      none ∧
    (finalize true sampleDb ["a.fdpart"] "a.fdpart" [(0, 4)] 6).fs =
      ["a.fdpart"] ∧
    (get_entry (finalize true sampleDb ["a.fdpart"] "a.fdpart" [(0, 4)]
        6).store "a.fdpart").1 =
      some { sampleEntry with progress := [(0, 4)], elapsed := 6 } := by
  have h : (get_entry sampleDb "a.fdpart").1 = some sampleEntry := rfl
  have hc := cancelled_run_exits_ok_and_resumable sampleDb ["a.fdpart"]
    "a.fdpart" [(0, 4)] 6 sampleEntry h
  exact ⟨h, hc.1, hc.2.1, hc.2.2.1, hc.2.2.2⟩

/-- C4: a run that completes without cancellation renames the `.fdpart`
file to the final name — the save path with the `.fdpart` suffix stripped,
disambiguated by `gen_unique_path` with a numeric suffix only when the
final name already exists — and deletes the store entry keyed by the
`.fdpart` path. -/
theorem completed_run_renames_and_removes (store : DbState)
    (fs : List String) (savePath : String) (wp : List ByteRange)
    (elapsedMs : Nat) :
    (finalize false store fs savePath wp elapsedMs).outputPath =
      some (gen_unique_path (dropFdpart savePath) fs) ∧
    (finalize false store fs savePath wp elapsedMs).fs =
      gen_unique_path (dropFdpart savePath) fs :: fs.erase savePath ∧
    (get_entry (finalize false store fs savePath wp elapsedMs).store
        savePath).1 = none ∧
    (finalize false store fs savePath wp elapsedMs).returnValue = .ok () ∧
    (fs.contains (dropFdpart savePath) = false →
      (finalize false store fs savePath wp elapsedMs).outputPath =
        some (dropFdpart savePath)) := by
  refine ⟨rfl, rfl, get_entry_remove_entry _ _, rfl, fun h => ?_⟩
  show some (gen_unique_path (dropFdpart savePath) fs) = _
  rw [gen_unique_path_of_fresh _ _ h]

/-- Witness for C4 with the concrete path `a.fdpart`: the artifact is
renamed to `a` and its store entry disappears. -/
theorem completed_run_witness :
    (finalize false sampleDb ["a.fdpart"] "a.fdpart" [(0, 10)] 12).outputPath
      = some "a" ∧
    (get_entry (finalize false sampleDb ["a.fdpart"] "a.fdpart" [(0, 10)]
        12).store "a.fdpart").1 = none := by
  have h := completed_run_renames_and_removes sampleDb ["a.fdpart"]
    "a.fdpart" [(0, 10)] 12
  have h5 := h.2.2.2.2 (by decide)
  have hd : dropFdpart "a.fdpart" = "a" := by decide
  exact ⟨by rw [h5, hd], h.2.2.1⟩

/-- A stored record for the resume claims: two completed stretches of a
10000-byte file leaving a 2000-byte gap, identity matching the fresh probe
(no etag, no last-modified). -/
def resumeCexEntry : DatabaseEntry :=
  { file_name := "f", file_size := 10000, etag := none,
    last_modified := none, progress := [(0, 1000), (3000, 4000)],
    elapsed := 55, url := "u" }

/-- C1 (counterexample): an accepted resume with `args.min_chunk_size =
4096`.  The engine welds with the fixed constant `1024`
(`commands/download.rs` line 95), so the 2000-byte gap survives as a chunk,
whereas `invert(write_progress, size, min_chunk_size)` would weld it away:
the produced `download_chunks` is not
`invert(write_progress, size, min_chunk_size)`. -/
theorem resume_invert_min_chunk_cex :
    phase1 4096 true false false true true 10000 none none
        (some resumeCexEntry) (fun _ => true) =
      .proceed true [(0, 1000), (3000, 4000)]
        [(1000, 3000), (4000, 10000)] 55 ∧
    [(1000, 3000), (4000, 10000)] ≠
      invert [(0, 1000), (3000, 4000)] 10000 4096 := by
  exact ⟨by decide, by decide⟩

/-- C1 (amended): on every accepted resume (save path exists, fast
download, a store entry with progress total below the size, every confirm
prompt accepted), the engine sets `write_progress` to the stored progress,
sets `download_chunks = invert(write_progress, size, 1024)` — the weld
threshold is the fixed constant 1024 bytes, not `args.min_chunk_size` —
and carries over the stored elapsed time. -/
theorem resume_sets_progress_chunks_elapsed (minChunk : Nat)
    (yes force : Bool) (entry : DatabaseEntry) (size : Nat)
    (etagNew lmNew : Option String) (ans : ConfirmPrompt → Bool)
    (hlt : sumProgress entry.progress < size)
    (hans : ∀ p, ans p = true) :
    phase1 minChunk true yes force true true size etagNew lmNew
        (some entry) ans =
      .proceed true entry.progress (invert entry.progress size 1024)
        entry.elapsed := by
  simp [phase1, resumeGates, confirmAns, hans, hlt]

/-- Witness for the amended C1 at `resumeCexEntry` with the default
`min_chunk_size`. -/
theorem resume_sets_progress_witness :
    sumProgress resumeCexEntry.progress < 10000 ∧
    phase1 8192 true false false true true 10000 none none
        (some resumeCexEntry) (fun _ => true) =
      .proceed true resumeCexEntry.progress
        (invert resumeCexEntry.progress 10000 1024)
        resumeCexEntry.elapsed := by
  exact ⟨by decide,
    resume_sets_progress_chunks_elapsed 8192 false false resumeCexEntry
      10000 none none (fun _ => true) (by decide) (fun p => rfl)⟩

/-- C5: on a resume attempt whose stored etag disagrees with the fresh
`UrlInfo` etag, when the interactive confirm for the mismatch answers false
(and `--yes` is not set), `download` takes the `cancel_expected()` exit: it
prints the user-visible cancel line and returns `Ok(())` without spawning
workers and without touching the target file or the store entry (phase 1
performs no store write; `.cancel` precedes worker spawn and `init_entry`).
Holds regardless of the other confirm answers: an earlier gate that fires
and is refused also cancels. -/
theorem etag_mismatch_refused_cancels (minChunk : Nat) (force : Bool)
    (entry : DatabaseEntry) (size : Nat) (etagNew lmNew : Option String)
    (ans : ConfirmPrompt → Bool)
    (hlt : sumProgress entry.progress < size)
    (hneq : entry.etag ≠ etagNew)
    (hans : ans .etagMismatch = false) :
    phase1 minChunk true false force true true size etagNew lmNew
        (some entry) ans = .cancel := by
  simp [phase1, hlt]
  unfold resumeGates
  by_cases hs : entry.file_size ≠ size ∧
    ¬ confirmAns false ans .sizeMismatch = true
  · rw [if_pos hs]
  · rw [if_neg hs, if_pos hneq, if_pos (by simp [confirmAns, hans])]

/-- Witness for C5: a stored strong etag against a fresh missing etag,
mismatch refused. -/
theorem etag_mismatch_refused_witness :
    sumProgress sampleEntry.progress < 10 ∧
    sampleEntry.etag ≠ none ∧
    phase1 1024 true false false true true 10 none none
        (some sampleEntry) (fun _ => false) = .cancel := by
  exact ⟨by decide, by decide,
    etag_mismatch_refused_cancels 1024 false sampleEntry 10 none none
      (fun _ => false) (by decide) (by decide) rfl⟩

/-- C6 (counterexample): with 1 byte available and 2 bytes of remaining
chunks, the engine does not return a structured Preflight engine error — it
takes the `cancel_expected()` exit (prints the lack-of-space line, returns
`Ok(())`). -/
theorem lack_of_space_not_engine_error_cex :
    spaceGate 1 [(0, 2)] = .cancelExpectedOk ∧
    spaceGate 1 [(0, 2)] ≠ .preflightError := by
  exact ⟨by decide, by decide⟩

/-- C6 (amended): before any workers start, if `download_chunks.total()`
exceeds the available free space, the engine aborts the run — but through
the cancel-expected success path (lack-of-space message plus `Ok(())`),
not a structured engine error. -/
theorem lack_of_space_cancels (avail : Nat) (chunks : List ByteRange)
    (h : avail < totalLen chunks) :
    spaceGate avail chunks = .cancelExpectedOk := by
  unfold spaceGate check_free_space
  rw [if_neg (by omega)]

/-- Witness for the amended C6: 5 bytes free, a 9-byte remaining chunk. -/
theorem lack_of_space_cancels_witness :
    5 < totalLen [(0, 9)] ∧ spaceGate 5 [(0, 9)] = .cancelExpectedOk := by
  exact ⟨by decide, lack_of_space_cancels 5 [(0, 9)] (by decide)⟩

/-- An extreme but valid `Downloading` record: `u64::MAX` whole seconds of
elapsed time (a legal Rust `Duration`), a whole number of milliseconds. -/
def wrapDownloading : Downloading :=
  { url := "u", file_name := "f", file_size := 0, etag := none,
    last_modified := none, progress := [],
    elapsed := { secs := 18446744073709551615, nanos := 0 } }

/-- C9 (counterexample): at `wrapDownloading` the elapsed time is already a
whole number of milliseconds, so the claim says the round-trip is the
identity; but `as_millis() as u64` wraps modulo `2^64` and the reloaded
record differs. -/
theorem downloading_roundtrip_wrap_cex :
    Downloading.load wrapDownloading.dump ≠ some wrapDownloading := by
  decide

/-- C9 (amended): for every `Downloading` record `d` that is a valid Rust
`Duration` (`nanos < 10^9`) and whose elapsed time in milliseconds fits a
`u64` (so the `as u64` cast does not wrap), `load(dump(d))` returns `d`
with `elapsed` truncated down to a whole number of milliseconds; when
`elapsed` is already a whole number of milliseconds the round-trip is the
identity. -/
theorem downloading_roundtrip_truncates (d : Downloading)
    (hn : d.elapsed.nanos < 1000000000)
    (hw : d.elapsed.as_millis < 2 ^ 64) :
    Downloading.load d.dump =
      some { d with elapsed :=
        { secs := d.elapsed.secs,
          nanos := d.elapsed.nanos / 1000000 * 1000000 } } ∧
    (d.elapsed.nanos % 1000000 = 0 → Downloading.load d.dump = some d) := by
  simp only [Duration.as_millis] at hw
  have hmain : Downloading.load d.dump =
      some { d with elapsed :=
        { secs := d.elapsed.secs,
          nanos := d.elapsed.nanos / 1000000 * 1000000 } } := by
    simp only [Downloading.load, Downloading.dump, Downloading.toRecord,
      DownloadingRecord.toDownloading, Duration.from_millis,
      Duration.as_millis, Option.some.injEq]
    have hmod : (d.elapsed.secs * 1000 + d.elapsed.nanos / 1000000) % 2 ^ 64
        = d.elapsed.secs * 1000 + d.elapsed.nanos / 1000000 :=
      Nat.mod_eq_of_lt hw
    rw [hmod]
    have h1 : (d.elapsed.secs * 1000 + d.elapsed.nanos / 1000000) / 1000 =
        d.elapsed.secs := by omega
    have h2 : (d.elapsed.secs * 1000 + d.elapsed.nanos / 1000000) % 1000 *
        1000000 = d.elapsed.nanos / 1000000 * 1000000 := by
      have : (d.elapsed.secs * 1000 + d.elapsed.nanos / 1000000) % 1000 =
          d.elapsed.nanos / 1000000 := by omega
      rw [this]
    cases d with
    | mk url fn fs et lm pr el =>
      cases el with
      | mk secs nanos =>
        simp only at h1 h2 ⊢
        rw [h1, h2]
  refine ⟨hmain, fun hz => ?_⟩
  rw [hmain]
  have : d.elapsed.nanos / 1000000 * 1000000 = d.elapsed.nanos :=
    Nat.div_mul_cancel (Nat.dvd_of_mod_eq_zero hz)
  cases d with
  | mk url fn fs et lm pr el =>
    cases el with
    | mk secs nanos =>
      simp only at this ⊢
      rw [this]

/-- A valid record with 1.5 ms of sub-second time, for the C9 witness. -/
def sampleDownloading : Downloading :=
  { url := "u", file_name := "f", file_size := 3, etag := some "e",
    last_modified := none, progress := [(0, 1)],
    elapsed := { secs := 1, nanos := 1500000 } }

/-- Witness for the amended C9: 1.5 ms truncates to 1 ms on reload. -/
theorem downloading_roundtrip_witness :
    sampleDownloading.elapsed.nanos < 1000000000 ∧
    sampleDownloading.elapsed.as_millis < 2 ^ 64 ∧
    Downloading.load sampleDownloading.dump =
      some { sampleDownloading with
        elapsed := { secs := 1, nanos := 1000000 } } := by
  refine ⟨by decide, by decide, ?_⟩
  exact (downloading_roundtrip_truncates sampleDownloading (by decide)
    (by decide)).1

end FastDown
